import Mathlib

/-!
# Verification of the VibeTranscribe clipboard/transcription coordination logic

A shallow embedding, in Lean 4, of the session-scoped clipboard coordinator
(`ClipboardManager`), the transcription retry logic (`TranscriptionProcessor`),
the renderer error handler (`ErrorHandler`) and the Electron main-process
`write-to-clipboard` IPC handler of the VibeTranscribe application, together
with theorems settling the frozen specification claims C1..C10.

Modelling conventions:
* JavaScript strings are Lean `String`; timestamps (`Date.now()`) are `Int`
  milliseconds; JS numbers used for backoff delays are `ℚ` (all delay values
  the code can produce — `initialDelay·1.5^k` capped at `5000` — are exactly
  representable IEEE doubles, so rational arithmetic is exact here).
* `localStorage` is a record of the two keys the code uses
  (`lastTranscription`, `lastTranscriptionData`); the structured entry is kept
  parsed (a `JSON.parse` failure in the code is caught and behaves like an
  absent entry).
* Asynchronous callbacks (`onSuccess` / `onError`) are modelled by reporting
  in the step result which callback fired and with which payload.
* The outside world (Electron IPC clipboard results, browser clipboard
  results, transcription HTTP results) is an explicit environment value
  consumed by each step.
-/

set_option linter.unusedVariables false

namespace VibeTranscribe

/-! ## Character/string helpers (kernel-reducible models of JS `trim` and
`String.prototype.includes`) -/

/-- ASCII whitespace, as removed by `String.prototype.trim` on the strings
this application handles. -/
def isWsChar (c : Char) : Bool :=
  c = ' ' || c = '\t' || c = '\n' || c = '\r'

/-- Model of `s.trim()`: strip leading and trailing whitespace. -/
def trimChars (l : List Char) : List Char :=
  ((l.dropWhile isWsChar).reverse.dropWhile isWsChar).reverse

/-- `s.trim()` on `String`s. -/
def strTrim (s : String) : String :=
  ⟨trimChars s.data⟩

/-- Model of `hay.includes(pat)` (substring containment). -/
def containsSub (hay pat : List Char) : Bool :=
  match hay with
  | [] => pat.isEmpty
  | _ :: t => pat.isPrefixOf hay || containsSub t pat

/-- `s.includes(pat)` on `String`s. -/
def strIncludes (s pat : String) : Bool :=
  containsSub s.data pat.data

namespace Clipboard

/-! ## Data model of `ClipboardManager` (`src/services/ClipboardManager.ts`) -/

/-- `StoredClipboardData`: the structured `localStorage` entry
(`lastTranscriptionData`). -/
structure StoredClipboardData where
  text : String
  sessionId : String
  timestamp : Int
deriving Repr, DecidableEq

/-- The two `localStorage` keys the clipboard manager uses. `none` means the
key is absent (or, for the structured key, unparseable). -/
structure Storage where
  lastTranscription : Option String
  lastTranscriptionData : Option StoredClipboardData
deriving Repr, DecidableEq

/-- `ClipboardOperation`: one queued clipboard write.  The `onSuccess` /
`onError` callbacks are not data; which one fires is reported by the step
result instead. -/
structure ClipboardOperation where
  id : String
  text : String
  attempts : Nat
  maxAttempts : Nat
  backoffDelay : ℚ
  timestamp : Int
  sessionId : String
deriving Repr, DecidableEq

/-- The mutable fields of the `ClipboardManager` singleton that the queue
logic reads and writes.  `isProcessing` is not modelled: steps are atomic in
this embedding (the flag only prevents re-entrant interleaving in JS).  The
system clipboard itself is part of the environment, not of this state. -/
structure ManagerState where
  operationQueue : List ClipboardOperation
  isFocused : Bool
  currentSessionId : String
  lastOperation : Option ClipboardOperation
  storage : Storage
deriving Repr, DecidableEq

/-- `saveToLocalStorage(text, sessionId)`: sets both keys. -/
def saveToLocalStorage (text sessionId : String) (now : Int) (_s : Storage) :
    Storage :=
  { lastTranscription := some text
    lastTranscriptionData := some { text := text, sessionId := sessionId, timestamp := now } }

/-- Resolve `sessionId || this.currentSessionId` (JS truthiness: the empty
string is falsy). -/
def resolveSessionTruthy (sid : Option String) (current : String) : String :=
  match sid with
  | none => current
  | some s => if s = "" then current else s

/-- `getFromLocalStorage(sessionId?)`: when the structured entry is absent the
legacy `lastTranscription` value is returned unconditionally; when it is
present its text is returned only if its session matches the target. -/
def getFromLocalStorage (st : ManagerState) (sid : Option String) : Option String :=
  let target := resolveSessionTruthy sid st.currentSessionId
  match st.storage.lastTranscriptionData with
  | none => st.storage.lastTranscription
  | some d => if d.sessionId = target then some d.text else none

/-- `clearClipboardData(sessionId?)`: drop the target session's queued
operations, its `lastOperation` reference, and its `localStorage` entry (both
keys are removed only when the structured entry belongs to the target
session).  The system-clipboard probe (`clearSystemClipboardIfMatches`) only
touches the OS clipboard, which is environment, not state. -/
def clearClipboardData (sid : Option String) (st : ManagerState) : ManagerState :=
  let target := resolveSessionTruthy sid st.currentSessionId
  { st with
    operationQueue := st.operationQueue.filter (fun op => op.sessionId ≠ target)
    lastOperation :=
      match st.lastOperation with
      | some l => if l.sessionId = target then none else some l
      | none => none
    storage :=
      match st.storage.lastTranscriptionData with
      | some d =>
          if d.sessionId = target then
            { lastTranscription := none, lastTranscriptionData := none }
          else st.storage
      | none => st.storage }

/-- `startNewSession()`: clear the previous session's data, empty the whole
queue, install a fresh session id (`newId` stands for the generated
`crypto.randomUUID()`), null the last-operation reference, and clean
`localStorage` (the legacy key always; the structured key when older than five
minutes).  `forceEmptySystemClipboard` only writes the OS clipboard and is
environment.  Returns the new id together with the new state. -/
def startNewSession (newId : String) (now : Int) (st : ManagerState) :
    String × ManagerState :=
  let st1 := if st.currentSessionId ≠ "" then clearClipboardData none st else st
  let st2 := { st1 with operationQueue := [] }
  let st3 := { st2 with currentSessionId := newId, lastOperation := none }
  let storage1 := { st3.storage with lastTranscription := none }
  let storage2 :=
    match storage1.lastTranscriptionData with
    | some d =>
        if now - d.timestamp > 5 * 60 * 1000 then
          { storage1 with lastTranscriptionData := none }
        else storage1
    | none => storage1
  (newId, { st3 with storage := storage2 })

/-- `getCurrentSessionId()`. -/
def getCurrentSessionId (st : ManagerState) : String :=
  st.currentSessionId

/-- `copyToClipboard(text, options)` up to the point where the promise is
pending: build the operation (attempts 0, timestamp `now`, fresh id `newId`,
session defaulting to the current one — destructuring defaults replace only
`undefined`, so `none` here), save the text to `localStorage` immediately,
push the operation, and remember it as `lastOperation`. -/
def copyToClipboard (text : String) (maxAttempts : Nat) (initialDelay : ℚ)
    (sid : Option String) (newId : String) (now : Int) (st : ManagerState) :
    ManagerState :=
  let sessionId := sid.getD st.currentSessionId
  let operation : ClipboardOperation :=
    { id := newId, text := text, attempts := 0, maxAttempts := maxAttempts
      backoffDelay := initialDelay, timestamp := now, sessionId := sessionId }
  { st with
    storage := saveToLocalStorage text sessionId now st.storage
    operationQueue := st.operationQueue ++ [operation]
    lastOperation := some operation }

/-! ## The `processQueue` ordering (stale filter + comparator sort) -/

/-- The stale-operation filter at the top of `processQueue`: keep an
operation unless it belongs to another session and is more than ten minutes
old. -/
def keepOp (now : Int) (current : String) (op : ClipboardOperation) : Bool :=
  !(op.sessionId ≠ current && now - op.timestamp > 10 * 60 * 1000 : Bool)

/-- The comparator passed to `this.operationQueue.sort`: current-session
operations first, then newest (largest timestamp) first. -/
def opCompare (current : String) (a b : ClipboardOperation) : Int :=
  if a.sessionId = current ∧ b.sessionId ≠ current then -1
  else if a.sessionId ≠ current ∧ b.sessionId = current then 1
  else b.timestamp - a.timestamp

/-- The total preorder induced by `opCompare` (`compare(a,b) ≤ 0`, i.e. `a`
sorts no later than `b`). -/
def opLE (current : String) (a b : ClipboardOperation) : Prop :=
  opCompare current a b ≤ 0

instance (current : String) : DecidableRel (opLE current) :=
  fun a b => inferInstanceAs (Decidable (opCompare current a b ≤ 0))

/-- Session rank used by the comparator: current session before the rest. -/
def sessionRank (current : String) (op : ClipboardOperation) : Nat :=
  if op.sessionId = current then 0 else 1

instance (current : String) : IsTotal ClipboardOperation (opLE current) := by
  constructor
  intro a b
  unfold opLE opCompare
  by_cases ha : a.sessionId = current <;> by_cases hb : b.sessionId = current <;>
    simp [ha, hb] <;> omega

instance (current : String) : IsTrans ClipboardOperation (opLE current) := by
  constructor
  intro a b c hab hbc
  unfold opLE opCompare at *
  by_cases ha : a.sessionId = current <;> by_cases hb : b.sessionId = current <;>
    by_cases hc : c.sessionId = current <;> simp_all <;> omega

/-- The pending order computed inside `processQueue`: drop stale foreign
operations, then sort with the comparator.  `List.insertionSort` is a stable
sort, matching the (ECMA-262-mandated stable) `Array.prototype.sort` on this
consistent comparator. -/
def processQueueOrder (now : Int) (current : String)
    (q : List ClipboardOperation) : List ClipboardOperation :=
  List.insertionSort (opLE current) (q.filter (keepOp now current))

/-! ## One pass of `processQueue` over the head operation

`processQueue` filters and sorts the queue, takes the head operation, and
attempts one clipboard write for it, with three tiers: the Electron IPC
clipboard (whenever `electron.writeToClipboard` exists), the browser
`navigator.clipboard` API (only when Electron is unavailable and the document
is focused), and `localStorage`.  The outside world's responses are an
`AttemptEnv`. -/

/-- Environment for one attempt: availability and outcome of the Electron
write, the sequence of verification read-backs (`none` = the read threw or
reported failure; a missing entry behaves like a failed read), and the
outcome of a browser write (`browserErrNotAllowed`: whether a browser
rejection is a `NotAllowedError` `DOMException`). -/
structure AttemptEnv where
  electronAvailable : Bool
  electronWriteOk : Bool
  electronErrMsg : String
  verifyReads : List (Option String)
  browserWriteOk : Bool
  browserErrMsg : String
  browserErrNotAllowed : Bool
deriving Repr, DecidableEq

/-- The errors that reach `processQueue`'s outer `catch`. -/
inductive ClipErr where
  | maxAttemptsExceeded : ClipErr
  | electronFailed : String → ClipErr
  | browserFailed : String → Bool → ClipErr
  | notFocused : ClipErr
deriving Repr, DecidableEq

/-- `error instanceof DOMException && error.name === "NotAllowedError"`.
The unfocused branch throws exactly such an exception; an Electron failure is
a plain `Error`. -/
def errIsNotAllowedDOM : ClipErr → Bool
  | ClipErr.maxAttemptsExceeded => false
  | ClipErr.electronFailed _ => false
  | ClipErr.browserFailed _ nA => nA
  | ClipErr.notFocused => true

/-- Which tier completed the operation. -/
inductive Tier where
  | electron : Tier
  | browser : Tier
  | storageOnly : Tier
deriving Repr, DecidableEq

/-- Observable outcome of one `processQueue` pass: the new manager state,
which callback fired (with its payload), which tiers were attempted, whether
the verification loop confirmed the content, and the scheduled retry delay
if a backoff retry was set up. -/
structure StepResult where
  state : ManagerState
  onSuccessFired : Option ClipboardOperation
  onErrorFired : Option (ClipboardOperation × ClipErr)
  attemptMade : Bool
  electronAttempted : Bool
  browserAttempted : Bool
  tier : Option Tier
  verified : Bool
  retryDelay : Option ℚ
deriving Repr, DecidableEq

/-- A pass that attempts nothing and fires no callback. -/
def noChangeResult (st : ManagerState) : StepResult :=
  { state := st, onSuccessFired := none, onErrorFired := none
    attemptMade := false, electronAttempted := false, browserAttempted := false
    tier := none, verified := false, retryDelay := none }

/-- The post-Electron-write verification loop: up to three read-backs; a
read confirms when it succeeded, returned non-empty text, and the trimmed
text equals the trimmed written text.  Even when every read fails the code
proceeds as success (`verified` is reported separately). -/
def verifyLoop (text : String) (reads : List (Option String)) : Bool :=
  (reads.take 3).any fun r =>
    match r with
    | some s => (s ≠ "" : Bool) && (strTrim s = strTrim text : Bool)
    | none => false

/-- JS object aliasing: `this.lastOperation` may reference the very operation
object whose fields were just mutated. -/
def syncLastOperation (op : ClipboardOperation) :
    Option ClipboardOperation → Option ClipboardOperation
  | some l => if l.id = op.id then some op else some l
  | none => none

/-- A tier succeeded: fire `onSuccess`, shift the queue, remember the
operation, and copy the text to `localStorage`. -/
def successResult (now : Int) (st : ManagerState) (op : ClipboardOperation)
    (rest : List ClipboardOperation) (t : Tier) (eAtt bAtt ver : Bool) :
    StepResult :=
  { state := { st with
        operationQueue := rest,
        lastOperation := some op,
        storage := saveToLocalStorage op.text op.sessionId now st.storage }
    onSuccessFired := some op, onErrorFired := none, attemptMade := true
    electronAttempted := eAtt, browserAttempted := bAtt, tier := some t
    verified := ver, retryDelay := none }

/-- The outer `catch`: the focus-loss case saves to `localStorage` and fires
`onSuccess`; otherwise retry with backoff while attempts remain, else fire
`onError`, shift, and save to `localStorage` as last resort.  `op` already
carries the incremented attempt count. -/
def failureResult (env : AttemptEnv) (now : Int) (st : ManagerState)
    (op : ClipboardOperation) (rest : List ClipboardOperation) (e : ClipErr)
    (eAtt bAtt : Bool) : StepResult :=
  if !st.isFocused && !env.electronAvailable && errIsNotAllowedDOM e then
    { state := { st with
          operationQueue := rest,
          lastOperation := some op,
          storage := saveToLocalStorage op.text op.sessionId now st.storage }
      onSuccessFired := some op, onErrorFired := none, attemptMade := true
      electronAttempted := eAtt, browserAttempted := bAtt
      tier := some Tier.storageOnly, verified := false, retryDelay := none }
  else if op.attempts < op.maxAttempts then
    let nextDelay := min (op.backoffDelay * (3 / 2)) 5000
    let op2 := { op with backoffDelay := nextDelay }
    { state := { st with
          operationQueue := op2 :: rest,
          lastOperation := syncLastOperation op2 st.lastOperation }
      onSuccessFired := none, onErrorFired := none, attemptMade := true
      electronAttempted := eAtt, browserAttempted := bAtt, tier := none
      verified := false, retryDelay := some nextDelay }
  else
    { state := { st with
          operationQueue := rest,
          lastOperation := syncLastOperation op st.lastOperation,
          storage := saveToLocalStorage op.text op.sessionId now st.storage }
      onSuccessFired := none, onErrorFired := some (op, e), attemptMade := true
      electronAttempted := eAtt, browserAttempted := bAtt, tier := none
      verified := false, retryDelay := none }

/-- One write attempt for the head operation `op` (attempt count already
incremented): Electron first whenever available (its failure propagates to
the outer catch, never to the browser tier in the same pass), the browser
API only when Electron is unavailable and the document is focused, and a
`NotAllowedError` throw when unfocused without Electron. -/
def attemptResult (env : AttemptEnv) (now : Int) (st : ManagerState)
    (op : ClipboardOperation) (rest : List ClipboardOperation) : StepResult :=
  if env.electronAvailable then
    if env.electronWriteOk then
      successResult now st op rest Tier.electron true false
        (verifyLoop op.text env.verifyReads)
    else
      failureResult env now st op rest
        (ClipErr.electronFailed env.electronErrMsg) true false
  else if st.isFocused then
    if env.browserWriteOk then
      successResult now st op rest Tier.browser false true false
    else
      failureResult env now st op rest
        (ClipErr.browserFailed env.browserErrMsg env.browserErrNotAllowed) false true
  else
    failureResult env now st op rest ClipErr.notFocused false false

/-- One pass of `processQueue`: early exit on an empty queue, stale filter,
comparator sort, max-attempts pre-check (fires `onError` and shifts without
attempting), then one attempt for the head operation with incremented
attempt count. -/
def processStep (env : AttemptEnv) (now : Int) (st : ManagerState) : StepResult :=
  if st.operationQueue.isEmpty then noChangeResult st
  else
    match processQueueOrder now st.currentSessionId st.operationQueue with
    | [] => noChangeResult { st with operationQueue := [] }
    | operation :: rest =>
      if operation.attempts ≥ operation.maxAttempts then
        { noChangeResult { st with operationQueue := rest } with
          onErrorFired := some (operation, ClipErr.maxAttemptsExceeded) }
      else
        attemptResult env now st
          { operation with attempts := operation.attempts + 1 } rest

/-- Iterate `processQueue` passes, one environment and clock value per pass
(the `finally` block reschedules processing while the queue is non-empty). -/
def runSteps : List (AttemptEnv × Int) → ManagerState → ManagerState
  | [], st => st
  | (env, now) :: rest, st => runSteps rest (processStep env now st).state

/-- Termination measure of one queued operation: remaining attempts plus
one (always positive, so removal strictly shrinks the queue measure). -/
def opWeight (op : ClipboardOperation) : Nat :=
  op.maxAttempts - op.attempts + 1

/-- Termination measure of the whole queue. -/
def queueMeasure (q : List ClipboardOperation) : Nat :=
  (q.map opWeight).sum

end Clipboard

namespace MainProcess

/-! ## The Electron main-process `ipcMain.handle('write-to-clipboard')`
handler (`electron/main.ts`) -/

/-- One iteration of the handler's retry loop as seen by the outside world:
either `clipboard.writeText` threw, or it returned and the follow-up
`clipboard.readText()` read back `content`. -/
inductive WriteAttempt where
  | throws : String → WriteAttempt
  | readsBack : String → WriteAttempt
deriving Repr, DecidableEq

/-- The shape of the handler's reply. -/
structure IpcResult where
  success : Bool
  error : Option String
deriving Repr, DecidableEq

/-- The `while (!success && retryCount < maxRetries)` loop: an attempt
succeeds exactly when the read-back equals the written text (strict `===`);
a throw or a mismatch consumes a retry. -/
def writeRetryLoop (text : String) : List WriteAttempt → Bool
  | [] => false
  | WriteAttempt.throws _ :: rest => writeRetryLoop text rest
  | WriteAttempt.readsBack c :: rest =>
      if c = text then true else writeRetryLoop text rest

/-- `ipcMain.handle('write-to-clipboard')`: clear (best effort), then retry
the verified write up to `maxRetries = 3` times; reply `{success: true}` only
when a verification read-back matched, else catch the final error and reply
`{success: false, error}`. -/
def writeToClipboardHandler (text : String) (attempts : List WriteAttempt) :
    IpcResult :=
  if writeRetryLoop text (attempts.take 3) then
    { success := true, error := none }
  else
    { success := false
      error := some "Error: Failed to write to clipboard after 3 attempts" }

end MainProcess

namespace Transcription

/-! ## Data model of `TranscriptionProcessor`
(`src/services/TranscriptionProcessor.ts`) -/

/-- Outcome of one `transcribeAudio` HTTP call: the transcribed text, or a
thrown `Error` with its message. -/
inductive TransOutcome where
  | ok : String → TransOutcome
  | err : String → TransOutcome
deriving Repr, DecidableEq

/-- The network-error test in `transcribeWithRetry`'s catch:
`error.message.includes('network') || ...('timeout') || ...('failed to fetch')`. -/
def isNetworkErrorMsg (m : String) : Bool :=
  strIncludes m "network" || strIncludes m "timeout" || strIncludes m "failed to fetch"

/-- The fields of a `TranscriptionJob` that the retry logic reads. -/
structure TransJob where
  attempts : Nat
  maxRetries : Nat
  sessionId : String
deriving Repr, DecidableEq

/-- `transcribeWithRetry(job)`: call `transcribeAudio` (consuming the next
outcome); on success return the text; on an error whose message contains one
of the network markers, and while `job.attempts < job.options.maxRetries`,
increment the attempt count and recurse; otherwise rethrow.  `none` means the
environment supplied no outcome for a call that was made. -/
def transcribeWithRetry (attempts maxRetries : Nat) :
    List TransOutcome → Option (Except String String)
  | [] => none
  | TransOutcome.ok t :: _ => some (Except.ok t)
  | TransOutcome.err m :: rest =>
      if isNetworkErrorMsg m = true ∧ attempts < maxRetries then
        transcribeWithRetry (attempts + 1) maxRetries rest
      else some (Except.error m)

/-- Number of `transcribeAudio` calls `transcribeWithRetry` performs (i.e.
outcomes it consumes) before returning. -/
def transcribeConsumed (attempts maxRetries : Nat) : List TransOutcome → Nat
  | [] => 0
  | TransOutcome.ok _ :: _ => 1
  | TransOutcome.err m :: rest =>
      if isNetworkErrorMsg m = true ∧ attempts < maxRetries then
        1 + transcribeConsumed (attempts + 1) maxRetries rest
      else 1

/-- The clipboard hand-off in `executeJob`: the attempt count is incremented
once before `transcribeWithRetry` runs, and on success
`clipboardManager.copyToClipboard(transcribedText, { sessionId: job.sessionId, ... })`
is called — this returns that call's `(text, sessionId)` pair. -/
def executeJobClipboardCall (job : TransJob) (outcomes : List TransOutcome) :
    Option (String × String) :=
  match transcribeWithRetry (job.attempts + 1) job.maxRetries outcomes with
  | some (Except.ok t) => some (t, job.sessionId)
  | _ => none

end Transcription

namespace ErrorSvc

/-! ## Data model of `ErrorHandler` (`src/services/ErrorHandler.ts`) -/

/-- `AppError`, trimmed to the fields the history logic reads (the original
error object, component, and extra data do not affect the history). -/
structure AppError where
  type : String
  message : String
  timestamp : Int
  recoverable : Bool
deriving Repr, DecidableEq

def MAX_HISTORY_SIZE : Nat := 20

/-- `addToErrorHistory(error)`: `unshift` the new error, then `pop` the last
(oldest) entry when the length exceeds `MAX_HISTORY_SIZE`. -/
def addToErrorHistory (e : AppError) (history : List AppError) : List AppError :=
  let h := e :: history
  if h.length > MAX_HISTORY_SIZE then h.dropLast else h

/-- The `ErrorHandler` singleton's mutable history (the recovery-strategy map
is fixed at construction and none of the strategies touches the history). -/
structure HandlerState where
  errorHistory : List AppError
deriving Repr, DecidableEq

/-- The effect of `handleError(error)` on the history: exactly
`addToErrorHistory` (logging and recovery-strategy execution do not modify
the history). -/
def handleError (e : AppError) (st : HandlerState) : HandlerState :=
  { errorHistory := addToErrorHistory e st.errorHistory }

/-- `captureError(...)` constructs an `AppError` and delegates to
`handleError`. -/
def captureError (type message : String) (timestamp : Int) (recoverable : Bool)
    (st : HandlerState) : HandlerState :=
  handleError { type := type, message := message, timestamp := timestamp
                recoverable := recoverable } st

end ErrorSvc

namespace Samples

/-! ## Concrete sample values used by witnesses and counterexamples -/

open Clipboard ErrorSvc

def emptyStorage : Storage :=
  { lastTranscription := none, lastTranscriptionData := none }

def opA : ClipboardOperation :=
  { id := "a", text := "first", attempts := 0, maxAttempts := 5
    backoffDelay := 100, timestamp := 1000, sessionId := "s" }

def opB : ClipboardOperation :=
  { id := "b", text := "second", attempts := 0, maxAttempts := 5
    backoffDelay := 100, timestamp := 2000, sessionId := "s" }

def opC : ClipboardOperation :=
  { id := "c", text := "stale one", attempts := 0, maxAttempts := 5
    backoffDelay := 100, timestamp := 500, sessionId := "t" }

def opD : ClipboardOperation :=
  { id := "d", text := "stale two", attempts := 0, maxAttempts := 5
    backoffDelay := 100, timestamp := 700, sessionId := "t" }

def opE : ClipboardOperation :=
  { id := "e", text := "last try", attempts := 4, maxAttempts := 5
    backoffDelay := 100, timestamp := 1000, sessionId := "s" }

def opH : ClipboardOperation :=
  { id := "h", text := "hello", attempts := 0, maxAttempts := 5
    backoffDelay := 100, timestamp := 1000, sessionId := "s" }

def opF : ClipboardOperation :=
  { id := "f", text := "tiny", attempts := 0, maxAttempts := 1
    backoffDelay := 100, timestamp := 0, sessionId := "s" }

def envElectronOk : AttemptEnv :=
  { electronAvailable := true, electronWriteOk := true, electronErrMsg := ""
    verifyReads := [some "second"], browserWriteOk := true
    browserErrMsg := "", browserErrNotAllowed := false }

def envElectronBad : AttemptEnv :=
  { electronAvailable := true, electronWriteOk := false
    electronErrMsg := "ipc failure", verifyReads := []
    browserWriteOk := true, browserErrMsg := "", browserErrNotAllowed := false }

def envNoElectron : AttemptEnv :=
  { electronAvailable := false, electronWriteOk := false, electronErrMsg := ""
    verifyReads := [], browserWriteOk := true, browserErrMsg := ""
    browserErrNotAllowed := false }

def envMismatch : AttemptEnv :=
  { electronAvailable := true, electronWriteOk := true, electronErrMsg := ""
    verifyReads := [some "DIFFERENT", some "DIFFERENT", some "DIFFERENT"]
    browserWriteOk := true, browserErrMsg := "", browserErrNotAllowed := false }

def stC1 : ManagerState :=
  { operationQueue := [opA, opB], isFocused := true, currentSessionId := "s"
    lastOperation := none, storage := emptyStorage }

def stC3 : ManagerState :=
  { operationQueue := [opC, opA, opD], isFocused := true
    currentSessionId := "s", lastOperation := none, storage := emptyStorage }

def stC4 : ManagerState :=
  { operationQueue := [opE], isFocused := true, currentSessionId := "s"
    lastOperation := none, storage := emptyStorage }

def stC4b : ManagerState :=
  { operationQueue := [opE], isFocused := false, currentSessionId := "s"
    lastOperation := none, storage := emptyStorage }

def stC5 : ManagerState :=
  { operationQueue := [opH], isFocused := true, currentSessionId := "s"
    lastOperation := none, storage := emptyStorage }

def stC6 : ManagerState :=
  { operationQueue := [opF], isFocused := true, currentSessionId := "s"
    lastOperation := none, storage := emptyStorage }

def stC8 : ManagerState :=
  { operationQueue := [], isFocused := true, currentSessionId := "s"
    lastOperation := none
    storage := { lastTranscription := some "legacy text"
                 lastTranscriptionData := none } }

def err0 : AppError :=
  { type := "unknown_error", message := "boom", timestamp := 0
    recoverable := true }

def histFull : HandlerState :=
  { errorHistory := List.replicate 20 err0 }

end Samples

/-! ## Theorems -/

namespace Clipboard

/-- Characterisation of the comparator preorder via session rank and
timestamp. -/
theorem opLE_iff (current : String) (a b : ClipboardOperation) :
    opLE current a b ↔
      sessionRank current a < sessionRank current b ∨
        (sessionRank current a = sessionRank current b ∧ b.timestamp ≤ a.timestamp) := by
  unfold opLE opCompare sessionRank
  by_cases ha : a.sessionId = current <;> by_cases hb : b.sessionId = current <;>
    simp [ha, hb]

theorem processQueueOrder_sorted (now : Int) (current : String)
    (q : List ClipboardOperation) :
    List.Sorted (opLE current) (processQueueOrder now current q) :=
  List.sorted_insertionSort _ _

theorem processQueueOrder_perm (now : Int) (current : String)
    (q : List ClipboardOperation) :
    (processQueueOrder now current q).Perm (q.filter (keepOp now current)) :=
  List.perm_insertionSort _ _

theorem mem_of_mem_processQueueOrder {now : Int} {current : String}
    {q : List ClipboardOperation} {op : ClipboardOperation}
    (h : op ∈ processQueueOrder now current q) : op ∈ q :=
  List.mem_of_mem_filter ((processQueueOrder_perm now current q).mem_iff.mp h)

theorem processQueueOrder_nil (now : Int) (current : String) :
    processQueueOrder now current [] = [] := rfl

/-- **C1 (counterexample).** The claim says same-session pending operations
are attempted in FIFO order (earlier timestamp first).  With two queued
operations of the same session — `opA` enqueued first (timestamp 1000),
`opB` second (timestamp 2000) — one `processQueue` pass attempts and
completes `opB`, the later one, while `opA` is still queued. -/
theorem C1_counterexample :
    Samples.opA.sessionId = Samples.opB.sessionId ∧
    Samples.opA.timestamp < Samples.opB.timestamp ∧
    (processStep Samples.envElectronOk 2000 Samples.stC1).onSuccessFired =
      some { Samples.opB with attempts := 1 } ∧
    (processStep Samples.envElectronOk 2000 Samples.stC1).state.operationQueue =
      [Samples.opA] := by
  refine ⟨rfl, by decide, ?_, ?_⟩ <;> rfl

/-- **C1 (amended).** Pending operations of the same session are processed
newest-first (LIFO): in the order `processQueue` computes, whenever two
operations carry the same session id, the later position holds the one with
the smaller-or-equal timestamp. -/
theorem C1_same_session_newest_first (now : Int) (current : String)
    (q : List ClipboardOperation)
    (i j : Fin (processQueueOrder now current q).length) (hij : i < j)
    (hsess : ((processQueueOrder now current q).get i).sessionId =
      ((processQueueOrder now current q).get j).sessionId) :
    ((processQueueOrder now current q).get j).timestamp ≤
      ((processQueueOrder now current q).get i).timestamp := by
  have hle := (processQueueOrder_sorted now current q).rel_get_of_lt hij
  rw [opLE_iff] at hle
  have hrank : sessionRank current ((processQueueOrder now current q).get i) =
      sessionRank current ((processQueueOrder now current q).get j) := by
    unfold sessionRank
    rw [hsess]
  rcases hle with hlt | ⟨_, hts⟩
  · omega
  · exact hts

/-- Witness for the amended C1 on a concrete two-element queue. -/
theorem C1_witness :
    ((processQueueOrder 2000 "s" [Samples.opA, Samples.opB]).get
        ⟨1, by decide⟩).timestamp ≤
      ((processQueueOrder 2000 "s" [Samples.opA, Samples.opB]).get
        ⟨0, by decide⟩).timestamp :=
  C1_same_session_newest_first 2000 "s" [Samples.opA, Samples.opB]
    ⟨0, by decide⟩ ⟨1, by decide⟩ (by decide) (by decide)

/-- **C3.** Current-session operations are attempted before stale-session
operations regardless of timestamps: in the order `processQueue` computes,
once a position holds an operation of a foreign session, every later
position does too (equivalently, every current-session operation precedes
every stale one). -/
theorem C3_current_session_first (now : Int) (current : String)
    (q : List ClipboardOperation)
    (i j : Fin (processQueueOrder now current q).length) (hij : i < j)
    (hstale : ((processQueueOrder now current q).get i).sessionId ≠ current) :
    ((processQueueOrder now current q).get j).sessionId ≠ current := by
  have hle := (processQueueOrder_sorted now current q).rel_get_of_lt hij
  rw [opLE_iff] at hle
  intro hcur
  have h1 : sessionRank current ((processQueueOrder now current q).get i) = 1 := by
    unfold sessionRank
    rw [if_neg hstale]
  have h0 : sessionRank current ((processQueueOrder now current q).get j) = 0 := by
    unfold sessionRank
    rw [if_pos hcur]
  rcases hle with hlt | ⟨heq, _⟩ <;> omega

/-- Witness for C3: a current-session operation sorts ahead of two stale
ones, so the position after a stale one is stale as well. -/
theorem C3_witness :
    ((processQueueOrder 700 "s"
        [Samples.opC, Samples.opA, Samples.opD]).get ⟨2, by decide⟩).sessionId ≠ "s" :=
  C3_current_session_first 700 "s" [Samples.opC, Samples.opA, Samples.opD]
    ⟨1, by decide⟩ ⟨2, by decide⟩ (by decide) (by decide)

/-- **C8.** `getFromLocalStorage` falls back to the legacy
`lastTranscription` value, for any requested session, whenever the
structured `lastTranscriptionData` entry is absent; the session check is
applied only when the structured entry is present. -/
theorem C8_legacy_fallback (st : ManagerState) (sid : Option String) :
    (st.storage.lastTranscriptionData = none →
      getFromLocalStorage st sid = st.storage.lastTranscription) ∧
    (∀ d, st.storage.lastTranscriptionData = some d →
      getFromLocalStorage st sid =
        if d.sessionId = resolveSessionTruthy sid st.currentSessionId
        then some d.text else none) := by
  constructor
  · intro h
    simp [getFromLocalStorage, h]
  · intro d h
    simp [getFromLocalStorage, h]

/-- Witness for C8: with only the legacy key set, a request for a session
the text never belonged to still returns the legacy text. -/
theorem C8_witness :
    getFromLocalStorage Samples.stC8 (some "other") = some "legacy text" :=
  (C8_legacy_fallback Samples.stC8 (some "other")).1 rfl

/-- **C9.** After `startNewSession` the queue is empty (operations of all
sessions are discarded), the last-operation reference is cleared, and the
current session id is exactly the id the call returned. -/
theorem C9_startNewSession_resets (newId : String) (now : Int)
    (st : ManagerState) :
    (startNewSession newId now st).2.operationQueue = [] ∧
    (startNewSession newId now st).2.lastOperation = none ∧
    getCurrentSessionId (startNewSession newId now st).2 =
      (startNewSession newId now st).1 := by
  simp [startNewSession, getCurrentSessionId]

/-- Exhaustive case analysis of one `processQueue` pass: nothing to do,
the filter emptied the queue, the head operation had already exhausted its
attempts (error + shift without an attempt), or an attempt is made with the
incremented attempt count. -/
theorem processStep_cases (env : AttemptEnv) (now : Int) (st : ManagerState) :
    (st.operationQueue = [] ∧ processStep env now st = noChangeResult st) ∨
    (processQueueOrder now st.currentSessionId st.operationQueue = [] ∧
      processStep env now st = noChangeResult { st with operationQueue := [] }) ∨
    (∃ op rest,
      processQueueOrder now st.currentSessionId st.operationQueue = op :: rest ∧
      op.maxAttempts ≤ op.attempts ∧
      processStep env now st =
        { noChangeResult { st with operationQueue := rest } with
          onErrorFired := some (op, ClipErr.maxAttemptsExceeded) }) ∨
    (∃ op rest,
      processQueueOrder now st.currentSessionId st.operationQueue = op :: rest ∧
      op.attempts < op.maxAttempts ∧
      processStep env now st =
        attemptResult env now st { op with attempts := op.attempts + 1 } rest) := by
  unfold processStep
  by_cases he : st.operationQueue.isEmpty
  · rw [if_pos he]
    exact Or.inl ⟨List.isEmpty_iff.mp he, rfl⟩
  · rw [if_neg he]
    cases hq : processQueueOrder now st.currentSessionId st.operationQueue with
    | nil => exact Or.inr (Or.inl ⟨rfl, rfl⟩)
    | cons op rest =>
      dsimp only
      by_cases hge : op.attempts ≥ op.maxAttempts
      · rw [if_pos hge]
        exact Or.inr (Or.inr (Or.inl ⟨op, rest, rfl, hge, rfl⟩))
      · rw [if_neg hge]
        exact Or.inr (Or.inr (Or.inr ⟨op, rest, rfl, by omega, rfl⟩))

/-- The browser clipboard API is attempted exactly when Electron's clipboard
bridge is unavailable and the document is focused. -/
theorem attemptResult_browserAttempted (env : AttemptEnv) (now : Int)
    (st : ManagerState) (op : ClipboardOperation)
    (rest : List ClipboardOperation) :
    (attemptResult env now st op rest).browserAttempted =
      (!env.electronAvailable && st.isFocused) := by
  unfold attemptResult successResult failureResult
  split_ifs <;> simp_all

/-- With Electron available and its write succeeding, the pass completes on
the Electron tier. -/
theorem attemptResult_electron_ok (env : AttemptEnv) (now : Int)
    (st : ManagerState) (op : ClipboardOperation)
    (rest : List ClipboardOperation) (hA : env.electronAvailable = true)
    (hW : env.electronWriteOk = true) :
    attemptResult env now st op rest =
      successResult now st op rest Tier.electron true false
        (verifyLoop op.text env.verifyReads) := by
  unfold attemptResult
  rw [if_pos hA, if_pos hW]

theorem attemptResult_electron_fail (env : AttemptEnv) (now : Int)
    (st : ManagerState) (op : ClipboardOperation)
    (rest : List ClipboardOperation) (hA : env.electronAvailable = true)
    (hW : env.electronWriteOk = false) :
    attemptResult env now st op rest =
      failureResult env now st op rest
        (ClipErr.electronFailed env.electronErrMsg) true false := by
  unfold attemptResult
  rw [if_pos hA, if_neg (by simp [hW])]

theorem attemptResult_browser_fail (env : AttemptEnv) (now : Int)
    (st : ManagerState) (op : ClipboardOperation)
    (rest : List ClipboardOperation) (hA : env.electronAvailable = false)
    (hF : st.isFocused = true) (hW : env.browserWriteOk = false) :
    attemptResult env now st op rest =
      failureResult env now st op rest
        (ClipErr.browserFailed env.browserErrMsg env.browserErrNotAllowed)
        false true := by
  unfold attemptResult
  rw [if_neg (by simp [hA]), if_pos hF, if_neg (by simp [hW])]

theorem attemptResult_unfocused (env : AttemptEnv) (now : Int)
    (st : ManagerState) (op : ClipboardOperation)
    (rest : List ClipboardOperation) (hA : env.electronAvailable = false)
    (hF : st.isFocused = false) :
    attemptResult env now st op rest =
      failureResult env now st op rest ClipErr.notFocused false false := by
  unfold attemptResult
  rw [if_neg (by simp [hA]), if_neg (by simp [hF])]

/-- Reduce `processStep` to the attempt on the head of the computed order. -/
theorem processStep_attempt (env : AttemptEnv) (now : Int) (st : ManagerState)
    (op : ClipboardOperation) (rest : List ClipboardOperation)
    (hq : processQueueOrder now st.currentSessionId st.operationQueue = op :: rest)
    (hlt : op.attempts < op.maxAttempts) :
    processStep env now st =
      attemptResult env now st { op with attempts := op.attempts + 1 } rest := by
  obtain ⟨hnil, -⟩ | ⟨hord, -⟩ | ⟨op', rest', hq', hge, -⟩ |
      ⟨op', rest', hq', hlt', hcase⟩ := processStep_cases env now st
  · rw [hnil] at hq
    simp [processQueueOrder_nil] at hq
  · rw [hord] at hq
    exact absurd hq (by simp)
  · rw [hq'] at hq
    obtain ⟨rfl, rfl⟩ : op' = op ∧ rest' = rest := by
      simpa using hq
    omega
  · rw [hq'] at hq
    obtain ⟨rfl, rfl⟩ : op' = op ∧ rest' = rest := by
      simpa using hq
    exact hcase

/-- **C2.** Tier order of one pass: the browser API is attempted only when
the native (Electron) API is unavailable (in particular, never when the
native write succeeded) and the document is focused; a pass with Electron
available and a successful native write completes on the Electron tier; and
`copyToClipboard` always stores a copy of the text (with its session id) in
`localStorage` at enqueue time, so local storage always receives the text. -/
theorem C2_fallback_tiers (env : AttemptEnv) (now : Int) (st : ManagerState) :
    ((processStep env now st).browserAttempted = true →
      (env.electronAvailable = false ∨ env.electronWriteOk = false) ∧
        st.isFocused = true ∧ env.electronAvailable = false) ∧
    (env.electronAvailable = true →
      (processStep env now st).browserAttempted = false) ∧
    (env.electronAvailable = true → env.electronWriteOk = true →
      (processStep env now st).attemptMade = true →
      (processStep env now st).tier = some Tier.electron ∧
        (processStep env now st).onSuccessFired.isSome = true) ∧
    (∀ text maxAtt delay sid newId,
      (copyToClipboard text maxAtt delay sid newId now st).storage =
        saveToLocalStorage text (sid.getD st.currentSessionId) now st.storage) := by
  have hbrow : (processStep env now st).browserAttempted = true →
      env.electronAvailable = false ∧ st.isFocused = true := by
    obtain ⟨-, hcase⟩ | ⟨-, hcase⟩ | ⟨op, rest, -, -, hcase⟩ |
        ⟨op, rest, -, -, hcase⟩ := processStep_cases env now st <;> rw [hcase]
    · simp [noChangeResult]
    · simp [noChangeResult]
    · simp [noChangeResult]
    · rw [attemptResult_browserAttempted]
      intro h
      simp only [Bool.and_eq_true, Bool.not_eq_true'] at h
      exact ⟨h.1, h.2⟩
  refine ⟨fun h => ⟨Or.inl (hbrow h).1, (hbrow h).2, (hbrow h).1⟩, ?_, ?_, ?_⟩
  · intro hA
    obtain ⟨-, hcase⟩ | ⟨-, hcase⟩ | ⟨op, rest, -, -, hcase⟩ |
        ⟨op, rest, -, -, hcase⟩ := processStep_cases env now st <;> rw [hcase]
    · rfl
    · rfl
    · rfl
    · rw [attemptResult_browserAttempted, hA]
      rfl
  · intro hA hW hmade
    obtain ⟨-, hcase⟩ | ⟨-, hcase⟩ | ⟨op, rest, -, -, hcase⟩ |
        ⟨op, rest, -, -, hcase⟩ := processStep_cases env now st <;>
      rw [hcase] at hmade ⊢
    · exact absurd hmade (by simp [noChangeResult])
    · exact absurd hmade (by simp [noChangeResult])
    · exact absurd hmade (by simp [noChangeResult])
    · rw [attemptResult_electron_ok env now st _ rest hA hW]
      exact ⟨rfl, rfl⟩
  · intro text maxAtt delay sid newId
    rfl

/-- Witness for C2: a pass with Electron available and succeeding completes
on the Electron tier. -/
theorem C2_witness :
    (processStep Samples.envElectronOk 2000 Samples.stC1).tier =
      some Tier.electron ∧
    (processStep Samples.envElectronOk 2000 Samples.stC1).onSuccessFired.isSome =
      true :=
  (C2_fallback_tiers Samples.envElectronOk 2000 Samples.stC1).2.2.1 rfl rfl rfl

/-- **C4.** A head operation on its final allowed attempt: if the attempt
fails for a non-focus reason (Electron write failed, or no Electron and a
focused browser write failed), `onError` fires with the operation, the
operation leaves the queue, and its text and session id are saved to
`localStorage`; if instead it fails only because the document is unfocused
with no Electron bridge, the text is saved to `localStorage` and `onSuccess`
fires. -/
theorem C4_exhausted_failure (env : AttemptEnv) (now : Int) (st : ManagerState)
    (op : ClipboardOperation) (rest : List ClipboardOperation)
    (hq : processQueueOrder now st.currentSessionId st.operationQueue = op :: rest)
    (hlt : op.attempts < op.maxAttempts)
    (hlast : op.maxAttempts ≤ op.attempts + 1) :
    ((env.electronAvailable = true ∧ env.electronWriteOk = false) ∨
      (env.electronAvailable = false ∧ st.isFocused = true ∧
        env.browserWriteOk = false) →
      (∃ e, (processStep env now st).onErrorFired =
        some ({ op with attempts := op.attempts + 1 }, e)) ∧
      (processStep env now st).onSuccessFired = none ∧
      (processStep env now st).state.operationQueue = rest ∧
      (processStep env now st).state.storage =
        saveToLocalStorage op.text op.sessionId now st.storage) ∧
    (env.electronAvailable = false ∧ st.isFocused = false →
      (processStep env now st).onSuccessFired =
        some { op with attempts := op.attempts + 1 } ∧
      (processStep env now st).onErrorFired = none ∧
      (processStep env now st).state.operationQueue = rest ∧
      (processStep env now st).state.storage =
        saveToLocalStorage op.text op.sessionId now st.storage) := by
  rw [processStep_attempt env now st op rest hq hlt]
  constructor
  · rintro (⟨hA, hW⟩ | ⟨hA, hF, hW⟩)
    · rw [attemptResult_electron_fail env now st _ rest hA hW]
      unfold failureResult
      rw [if_neg (by simp [hA]), if_neg (by simp; omega)]
      exact ⟨⟨_, rfl⟩, rfl, rfl, rfl⟩
    · rw [attemptResult_browser_fail env now st _ rest hA hF hW]
      unfold failureResult
      rw [if_neg (by simp [hF]), if_neg (by simp; omega)]
      exact ⟨⟨_, rfl⟩, rfl, rfl, rfl⟩
  · rintro ⟨hA, hF⟩
    rw [attemptResult_unfocused env now st _ rest hA hF]
    unfold failureResult
    rw [if_pos (by simp [hA, hF, errIsNotAllowedDOM])]
    exact ⟨rfl, rfl, rfl, rfl⟩

/-- Witness for C4: one operation on its last attempt, Electron write
failing, fires `onError`, leaves the queue, and lands in `localStorage`. -/
theorem C4_witness :
    (∃ e, (processStep Samples.envElectronBad 1000 Samples.stC4).onErrorFired =
      some ({ Samples.opE with attempts := 5 }, e)) ∧
    (processStep Samples.envElectronBad 1000 Samples.stC4).onSuccessFired = none ∧
    (processStep Samples.envElectronBad 1000 Samples.stC4).state.operationQueue = [] ∧
    (processStep Samples.envElectronBad 1000 Samples.stC4).state.storage =
      saveToLocalStorage Samples.opE.text Samples.opE.sessionId 1000
        Samples.stC4.storage :=
  (C4_exhausted_failure Samples.envElectronBad 1000 Samples.stC4 Samples.opE []
    rfl (by decide) (by decide)).1 (Or.inl ⟨rfl, rfl⟩)

/-- **C5 (counterexample).** The renderer coordinator reports success even
though no verification read ever confirmed the written text: Electron
reports a successful write, all three verification read-backs return
different content, and the pass still fires `onSuccess`. -/
theorem C5_counterexample :
    (processStep Samples.envMismatch 1000 Samples.stC5).onSuccessFired =
      some { Samples.opH with attempts := 1 } ∧
    (processStep Samples.envMismatch 1000 Samples.stC5).tier =
      some Tier.electron ∧
    (processStep Samples.envMismatch 1000 Samples.stC5).verified = false := by
  exact ⟨rfl, rfl, rfl⟩

/-! ### Measure lemmas for termination (C6) -/

theorem opWeight_pos (op : ClipboardOperation) : 1 ≤ opWeight op := by
  unfold opWeight
  omega

theorem queueMeasure_cons (op : ClipboardOperation)
    (q : List ClipboardOperation) :
    queueMeasure (op :: q) = opWeight op + queueMeasure q := by
  unfold queueMeasure
  simp

theorem queueMeasure_pos {q : List ClipboardOperation} (h : q ≠ []) :
    0 < queueMeasure q := by
  cases q with
  | nil => simp at h
  | cons op rest =>
    rw [queueMeasure_cons]
    have := opWeight_pos op
    omega

theorem queueMeasure_filter_le (p : ClipboardOperation → Bool)
    (q : List ClipboardOperation) :
    queueMeasure (q.filter p) ≤ queueMeasure q := by
  induction q with
  | nil => simp [queueMeasure]
  | cons op rest ih =>
    rw [List.filter_cons, queueMeasure_cons]
    split
    · rw [queueMeasure_cons]
      omega
    · omega

theorem queueMeasure_perm {l l' : List ClipboardOperation} (h : l.Perm l') :
    queueMeasure l = queueMeasure l' := by
  unfold queueMeasure
  exact (h.map opWeight).sum_eq

theorem queueMeasure_order_le (now : Int) (current : String)
    (q : List ClipboardOperation) :
    queueMeasure (processQueueOrder now current q) ≤ queueMeasure q := by
  rw [queueMeasure_perm (processQueueOrder_perm now current q)]
  exact queueMeasure_filter_le _ q

/-- After an attempt, the queue is either the tail or the tail with the head
re-queued carrying its new backoff delay (only while attempts remain). -/
theorem attemptResult_queue_cases (env : AttemptEnv) (now : Int)
    (st : ManagerState) (op : ClipboardOperation)
    (rest : List ClipboardOperation) :
    (attemptResult env now st op rest).state.operationQueue = rest ∨
    ((attemptResult env now st op rest).state.operationQueue =
        { op with backoffDelay := min (op.backoffDelay * (3 / 2)) 5000 } :: rest ∧
      op.attempts < op.maxAttempts) := by
  unfold attemptResult successResult failureResult
  split_ifs <;>
    first
      | exact Or.inl rfl
      | exact Or.inr ⟨rfl, by assumption⟩

/-- A retry is scheduled only with the capped 1.5× backoff delay. -/
theorem attemptResult_retryDelay (env : AttemptEnv) (now : Int)
    (st : ManagerState) (op : ClipboardOperation)
    (rest : List ClipboardOperation) (d : ℚ) :
    (attemptResult env now st op rest).retryDelay = some d →
      d = min (op.backoffDelay * (3 / 2)) 5000 := by
  unfold attemptResult successResult failureResult
  split_ifs <;> intro h <;> simp_all

/-- Every pass on a non-empty queue strictly decreases the queue measure. -/
theorem processStep_measure_lt (env : AttemptEnv) (now : Int)
    (st : ManagerState) (hne : st.operationQueue ≠ []) :
    queueMeasure (processStep env now st).state.operationQueue <
      queueMeasure st.operationQueue := by
  have hpos := queueMeasure_pos hne
  obtain ⟨hnil, -⟩ | ⟨-, hcase⟩ | ⟨op, rest, hq, -, hcase⟩ |
      ⟨op, rest, hq, hlt, hcase⟩ := processStep_cases env now st
  · exact absurd hnil hne
  · rw [hcase]
    exact hpos
  · rw [hcase]
    have hle := queueMeasure_order_le now st.currentSessionId st.operationQueue
    rw [hq, queueMeasure_cons] at hle
    have := opWeight_pos op
    simp only [noChangeResult]
    omega
  · rw [hcase]
    have hle := queueMeasure_order_le now st.currentSessionId st.operationQueue
    rw [hq, queueMeasure_cons] at hle
    have hw := opWeight_pos op
    obtain htail | ⟨hre, hlt2⟩ :=
      attemptResult_queue_cases env now st
        { op with attempts := op.attempts + 1 } rest
    · rw [htail]
      omega
    · rw [hre, queueMeasure_cons]
      have h3 : op.attempts + 1 < op.maxAttempts := by
        simpa using hlt2
      dsimp only [opWeight] at hle ⊢
      omega

theorem processStep_preserves_empty (env : AttemptEnv) (now : Int)
    (st : ManagerState) (h : st.operationQueue = []) :
    (processStep env now st).state.operationQueue = [] := by
  unfold processStep
  rw [if_pos (by simp [h])]
  exact h

/-- Iterating passes for at least `queueMeasure` many steps empties the
queue: processing of any fixed finite queue terminates. -/
theorem runSteps_empties (steps : List (AttemptEnv × Int)) :
    ∀ st : ManagerState, queueMeasure st.operationQueue ≤ steps.length →
      (runSteps steps st).operationQueue = [] := by
  induction steps with
  | nil =>
    intro st h
    simp only [runSteps]
    rcases hq : st.operationQueue with - | ⟨o, r⟩
    · rfl
    · exfalso
      have := queueMeasure_pos (q := st.operationQueue) (by simp [hq])
      simp at h
      omega
  | cons p rest ih =>
    intro st h
    obtain ⟨e, n⟩ := p
    simp only [runSteps]
    by_cases hq : st.operationQueue = []
    · refine ih _ ?_
      rw [processStep_preserves_empty e n st hq]
      simp [queueMeasure]
    · have hlt := processStep_measure_lt e n st hq
      refine ih _ ?_
      simp only [List.length_cons] at h
      omega

/-- **C6.** Bounded attempts, capped geometric backoff, and termination:
the per-operation invariant `attempts ≤ maxAttempts` is preserved by every
pass; any scheduled retry delay equals the head operation's previous delay
times 1.5 capped at 5000 ms (hence never exceeds 5000 ms); every pass on a
non-empty queue strictly decreases the queue measure; and running at least
`queueMeasure` many passes empties any fixed finite queue. -/
theorem C6_bounded_retries_terminate (env : AttemptEnv) (now : Int)
    (st : ManagerState) :
    ((∀ o ∈ st.operationQueue, o.attempts ≤ o.maxAttempts) →
      ∀ o ∈ (processStep env now st).state.operationQueue,
        o.attempts ≤ o.maxAttempts) ∧
    (∀ op rest d,
      processQueueOrder now st.currentSessionId st.operationQueue = op :: rest →
      (processStep env now st).retryDelay = some d →
      d = min (op.backoffDelay * (3 / 2)) 5000 ∧ d ≤ 5000) ∧
    (st.operationQueue ≠ [] →
      queueMeasure (processStep env now st).state.operationQueue <
        queueMeasure st.operationQueue) ∧
    (∀ steps : List (AttemptEnv × Int),
      queueMeasure st.operationQueue ≤ steps.length →
      (runSteps steps st).operationQueue = []) := by
  refine ⟨?_, ?_, processStep_measure_lt env now st, fun steps h => runSteps_empties steps st h⟩
  · intro hinv o ho
    have hmem : ∀ o' ∈ processQueueOrder now st.currentSessionId st.operationQueue,
        o'.attempts ≤ o'.maxAttempts := fun o' ho' =>
      hinv o' (mem_of_mem_processQueueOrder ho')
    obtain ⟨-, hcase⟩ | ⟨-, hcase⟩ | ⟨op, rest, hq, -, hcase⟩ |
        ⟨op, rest, hq, hlt, hcase⟩ := processStep_cases env now st <;>
      rw [hcase] at ho
    · exact hinv o ho
    · simp [noChangeResult] at ho
    · exact hmem o (by rw [hq]; exact List.mem_cons_of_mem _ ho)
    · obtain htail | ⟨hre, hlt2⟩ :=
        attemptResult_queue_cases env now st
          { op with attempts := op.attempts + 1 } rest
      · rw [htail] at ho
        exact hmem o (by rw [hq]; exact List.mem_cons_of_mem _ ho)
      · rw [hre] at ho
        rcases List.mem_cons.mp ho with heq | htl
        · subst heq
          have h3 : op.attempts + 1 < op.maxAttempts := by simpa using hlt2
          simp only []
          omega
        · exact hmem o (by rw [hq]; exact List.mem_cons_of_mem _ htl)
  · intro op rest d hq hd
    obtain ⟨hnil, hcase⟩ | ⟨hord, hcase⟩ | ⟨op', rest', hq', -, hcase⟩ |
        ⟨op', rest', hq', hlt', hcase⟩ := processStep_cases env now st <;>
      rw [hcase] at hd
    · simp [noChangeResult] at hd
    · simp [noChangeResult] at hd
    · simp [noChangeResult] at hd
    · rw [hq'] at hq
      injection hq with h1 h2
      subst h1
      subst h2
      have hmin := attemptResult_retryDelay env now st _ rest' d hd
      refine ⟨hmin, ?_⟩
      rw [hmin]
      exact min_le_right _ _

/-- Witness for C6: a one-operation queue with a single allowed attempt is
emptied within its measure (two passes). -/
theorem C6_witness :
    (runSteps [(Samples.envElectronBad, 0), (Samples.envElectronBad, 0)]
      Samples.stC6).operationQueue = [] :=
  (C6_bounded_retries_terminate Samples.envElectronBad 0 Samples.stC6).2.2.2
    [(Samples.envElectronBad, 0), (Samples.envElectronBad, 0)] (by decide)

end Clipboard

namespace ErrorSvc

/-- **C10.** The error handler's history never exceeds `MAX_HISTORY_SIZE`
(20): whenever the invariant holds before `handleError` (and hence
`captureError`) records an error, it holds afterwards, the new entry is at
the front, and when the history is full the oldest (last) entry is the one
evicted. -/
theorem C10_error_history_bounded (e : AppError) (st : HandlerState)
    (h : st.errorHistory.length ≤ MAX_HISTORY_SIZE) :
    (handleError e st).errorHistory.length ≤ MAX_HISTORY_SIZE ∧
    (∀ type message ts rec,
      (captureError type message ts rec st).errorHistory.length ≤ MAX_HISTORY_SIZE) ∧
    (handleError e st).errorHistory.head? = some e ∧
    (st.errorHistory.length = MAX_HISTORY_SIZE →
      (handleError e st).errorHistory = (e :: st.errorHistory).dropLast) := by
  have key : ∀ e' : AppError,
      (addToErrorHistory e' st.errorHistory).length ≤ MAX_HISTORY_SIZE := by
    intro e'
    simp only [addToErrorHistory]
    split
    · simpa using h
    · next hc =>
      simp only [List.length_cons, gt_iff_lt, not_lt] at hc ⊢
      omega
  refine ⟨key e, fun t m ts r => key _, ?_, fun hfull => ?_⟩
  · simp only [handleError, addToErrorHistory]
    split
    · next hc =>
      have hne : st.errorHistory ≠ [] := by
        intro hnil
        rw [hnil] at hc
        simp [MAX_HISTORY_SIZE] at hc
      rw [List.dropLast_cons_of_ne_nil hne]
      simp
    · simp
  · simp only [handleError, addToErrorHistory]
    rw [if_pos]
    simp [hfull, MAX_HISTORY_SIZE]

/-- Witness for C10 at a full (20-entry) history. -/
theorem C10_witness :
    (handleError Samples.err0 Samples.histFull).errorHistory.length ≤
      MAX_HISTORY_SIZE :=
  (C10_error_history_bounded Samples.err0 Samples.histFull
      (by simp [Samples.histFull, MAX_HISTORY_SIZE])).1

end ErrorSvc

namespace MainProcess

/-- A successful run of the retry loop contains a read-back equal to the
written text. -/
theorem writeRetryLoop_readback {text : String} :
    ∀ {l : List WriteAttempt}, writeRetryLoop text l = true →
      WriteAttempt.readsBack text ∈ l := by
  intro l
  induction l with
  | nil =>
    intro h
    simp [writeRetryLoop] at h
  | cons a rest ih =>
    intro h
    cases a with
    | throws m =>
      simp only [writeRetryLoop] at h
      exact List.mem_cons_of_mem _ (ih h)
    | readsBack c =>
      simp only [writeRetryLoop] at h
      by_cases hc : c = text
      · subst hc
        exact List.mem_cons_self _ _
      · rw [if_neg hc] at h
        exact List.mem_cons_of_mem _ (ih h)

/-- **C5 (amended).** The main-process `write-to-clipboard` handler returns
success only if, within its three retries, a read-back of the clipboard
returned exactly the written text.  (The renderer coordinator itself can
report success without a confirming verification read — see the
counterexample — so only the main-process half of the claim holds.) -/
theorem C5_handler_success_verified (text : String)
    (attempts : List WriteAttempt)
    (h : (writeToClipboardHandler text attempts).success = true) :
    WriteAttempt.readsBack text ∈ attempts.take 3 := by
  unfold writeToClipboardHandler at h
  by_cases hc : writeRetryLoop text (attempts.take 3) = true
  · exact writeRetryLoop_readback hc
  · rw [if_neg (by simp [hc])] at h
    simp at h

/-- Witness for the amended C5 on a one-attempt run. -/
theorem C5_witness :
    WriteAttempt.readsBack "x" ∈ [WriteAttempt.readsBack "x"].take 3 :=
  C5_handler_success_verified "x" [WriteAttempt.readsBack "x"] (by decide)

end MainProcess

namespace Transcription

/-- **C7.** The transcription call is retried only on an error whose message
contains one of the network markers while the attempt count is below
`maxRetries`; any other error is returned to the caller immediately, with no
further call; and a successful transcription is handed to the clipboard
coordinator paired with the job's session id. -/
theorem C7_retry_policy :
    (∀ attempts maxRetries m rest,
      ¬(isNetworkErrorMsg m = true ∧ attempts < maxRetries) →
      transcribeWithRetry attempts maxRetries (TransOutcome.err m :: rest) =
        some (Except.error m) ∧
      transcribeConsumed attempts maxRetries (TransOutcome.err m :: rest) = 1) ∧
    (∀ attempts maxRetries o rest,
      1 < transcribeConsumed attempts maxRetries (o :: rest) →
      ∃ m, o = TransOutcome.err m ∧ isNetworkErrorMsg m = true ∧
        attempts < maxRetries) ∧
    (∀ (job : TransJob) outcomes t,
      transcribeWithRetry (job.attempts + 1) job.maxRetries outcomes =
        some (Except.ok t) →
      executeJobClipboardCall job outcomes = some (t, job.sessionId)) := by
  refine ⟨?_, ?_, ?_⟩
  · intro a r m rest h
    constructor
    · simp only [transcribeWithRetry]
      rw [if_neg h]
    · simp only [transcribeConsumed]
      rw [if_neg h]
  · intro a r o rest h
    cases o with
    | ok t => simp [transcribeConsumed] at h
    | err m =>
      refine ⟨m, rfl, ?_⟩
      by_cases hc : isNetworkErrorMsg m = true ∧ a < r
      · exact ⟨hc.1, hc.2⟩
      · simp only [transcribeConsumed] at h
        rw [if_neg hc] at h
        omega
  · intro job outcomes t h
    unfold executeJobClipboardCall
    rw [h]

/-- Witness for C7: a non-network error is returned unchanged after a single
call. -/
theorem C7_witness :
    transcribeWithRetry 1 1 [TransOutcome.err "invalid api key"] =
      some (Except.error "invalid api key") :=
  (C7_retry_policy.1 1 1 "invalid api key" [] (by decide)).1

end Transcription

end VibeTranscribe
